import Mathlib

/-!
Shallow embedding of the LL905 range-finder driver
(`src/drivers/ll905/ll905.cpp`): the measure/collect sampling cycle
engine, its history ring buffer, the rate/queue ioctl control surface,
and the on-demand read path.

Modelling conventions:
* Machine integers become `Nat`/`Int`; the two device bytes are reduced
  `% 256` as `uint8_t` values.
* `float` arithmetic is modelled by exact rationals (`ℚ`); the scale
  factor `0.01f` becomes `1/100`.
* The I2C bus `transfer` primitive is an external collaborator, so each
  transaction's outcome (return code, bytes read) is an oracle input to
  the function that performs it, and each attempted transaction is
  recorded in an event trace (`Event`).
* The NuttX work queue holds at most one pending `_work` item per
  driver, modelled as `pending : Option Nat` (the delay, in ticks, of
  the scheduled `cycle` invocation); `work_queue` overwrites it,
  `work_cancel` clears it.
* `hrt_absolute_time` is an oracle input `now`.
-/

namespace LL905

/-- Fixed device conversion interval, microseconds (`LL905_CONVERSION_INTERVAL`). -/
def LL905_CONVERSION_INTERVAL : Nat := 100000

/-- Default minimum distance `LL905_MIN_DISTANCE = 0.20f`, as an exact rational. -/
def LL905_MIN_DISTANCE : ℚ := 20 / 100

/-- Default maximum distance `LL905_MAX_DISTANCE = 10.00f`. -/
def LL905_MAX_DISTANCE : ℚ := 10

/-- Modelled from the spec: the NuttX tick length is outside this
repository; 10 ms per tick (the NuttX default), so the 100 ms
conversion interval is 10 ticks. -/
def USEC_PER_TICK : Nat := 10000

/-- Modelled from the spec: the NuttX `USEC2TICK` macro (microseconds to
ticks, rounding up); its header is outside this repository. -/
def USEC2TICK (usec : Nat) : Nat := (usec + (USEC_PER_TICK - 1)) / USEC_PER_TICK

/-- The `OK` success return code. -/
def OK : Int := 0

/-- Errno values used by the driver (returned negated). -/
def EINVAL : Int := 22

def ENOMEM : Int := 12

/-- Modelled from the spec: `SENSOR_POLLRATE_*` sentinel values come
from the PX4 sensor driver header, outside this repository; they are
distinct values that no realistic explicit-Hz request uses. -/
def SENSOR_POLLRATE_MANUAL : Nat := 1000000

def SENSOR_POLLRATE_EXTERNAL : Nat := 1000001

def SENSOR_POLLRATE_MAX : Nat := 1000002

def SENSOR_POLLRATE_DEFAULT : Nat := 1000003

def RANGE_FINDER_TYPE_LASER : Nat := 0

/-- A bus-visible action of the driver: an acquisition command write, a
sleep of some microseconds, or a distance-register read transaction. -/
inductive Event where
  | acquire
  | sleep (usec : Nat)
  | readDist
deriving Repr, DecidableEq

/-- The `range_finder_report` record built by `collect`. -/
structure RangeFinderReport where
  timestamp : Nat
  sensorType : Nat
  error_count : Nat
  distance : ℚ
  valid : Nat
deriving Repr, DecidableEq

/-- Modelled from the spec: the `RingBuffer` class
(`drivers/device/ringbuffer`) is outside this repository. Ordered list
of reports, oldest first; `capacity` is the configured depth. -/
structure RingBuffer where
  capacity : Nat
  items : List RangeFinderReport
deriving Repr, DecidableEq

/-- Modelled from the spec: `RingBuffer::force` inserts, overwriting the
oldest entry when full, and returns whether an entry was overwritten. -/
def RingBuffer.force (rb : RingBuffer) (r : RangeFinderReport) : RingBuffer × Bool :=
  if rb.capacity ≤ rb.items.length then
    (⟨rb.capacity, rb.items.tail ++ [r]⟩, true)
  else
    (⟨rb.capacity, rb.items ++ [r]⟩, false)

/-- Modelled from the spec: `RingBuffer::get` removes and returns the
oldest entry, or fails when empty. -/
def RingBuffer.get (rb : RingBuffer) : Option (RangeFinderReport × RingBuffer) :=
  match rb.items with
  | [] => none
  | r :: rest => some (r, ⟨rb.capacity, rest⟩)

/-- Modelled from the spec: `RingBuffer::flush` discards all entries. -/
def RingBuffer.flush (rb : RingBuffer) : RingBuffer := ⟨rb.capacity, []⟩

/-- Modelled from the spec: `RingBuffer::resize` fails below capacity 1,
otherwise keeps as many most-recent entries as fit. -/
def RingBuffer.resize (rb : RingBuffer) (n : Nat) : Option RingBuffer :=
  if n < 1 then none
  else some ⟨n, rb.items.drop (rb.items.length - n)⟩

/-- Modelled from the spec: `RingBuffer::size` reports the configured
capacity, not the occupancy. -/
def RingBuffer.size (rb : RingBuffer) : Nat := rb.capacity

/-- The driver-owned mutable state of one `LL905` instance: the fields
of the C++ class that the specified core reads or writes, plus the
pending work-queue entry. -/
structure DriverState where
  min_distance : ℚ
  max_distance : ℚ
  reports : RingBuffer
  measure_ticks : Nat
  collect_phase : Bool
  comms_errors : Nat
  buffer_overflows : Nat
  pending : Option Nat
deriving Repr, DecidableEq

/-- The constructor `LL905::LL905` followed by the buffer allocation in
`init()` (capacity 2): interval 0, measuring phase, default thresholds,
zeroed counters, nothing scheduled. -/
def initState : DriverState where
  min_distance := LL905_MIN_DISTANCE
  max_distance := LL905_MAX_DISTANCE
  reports := ⟨2, []⟩
  measure_ticks := 0
  collect_phase := false
  comms_errors := 0
  buffer_overflows := 0
  pending := none

/-- `LL905::measure`: write the two-byte acquisition command; on a
non-`OK` transfer result count a comms error and return the transfer's
code. `busRet` is the oracle outcome of the bus transaction. -/
def measure (s : DriverState) (busRet : Int) : DriverState × Int × List Event :=
  if busRet ≠ OK then
    ({ s with comms_errors := s.comms_errors + 1 }, busRet, [Event.acquire])
  else
    (s, OK, [Event.acquire])

/-- Big-endian composition `(val[0] << 8) | val[1]` of the two distance
register bytes (`uint8_t`, hence the `% 256`). -/
def composeBytes (hi lo : Nat) : Nat := (hi % 256) * 256 + lo % 256

/-- The centimeter-to-meter scaling `distance * 0.01f`, exactly. -/
def rawToMeters (count : Nat) : ℚ := (count : ℚ) * (1 / 100)

/-- The report construction block of `LL905::collect` (lines 528-542):
timestamp, type, error count snapshot, scaled distance, and the strict
in-range validity flag. -/
def mkReport (s : DriverState) (hi lo now : Nat) : RangeFinderReport where
  timestamp := now
  sensorType := RANGE_FINDER_TYPE_LASER
  error_count := s.comms_errors
  distance := rawToMeters (composeBytes hi lo)
  valid :=
    if s.min_distance < rawToMeters (composeBytes hi lo)
        ∧ rawToMeters (composeBytes hi lo) < s.max_distance
    then 1 else 0

/-- `LL905::collect`: read the distance register pair. On a negative
transfer result count a comms error and return it; otherwise build the
report, force it into the ring (counting overflow) and return `OK`.
`busRet` is the transfer outcome, `hi`/`lo` the bytes read, `now` the
clock oracle. The publish to the uORB sink is external and not part of
the state. -/
def collect (s : DriverState) (busRet : Int) (hi lo now : Nat) :
    DriverState × Int × List Event :=
  if busRet < 0 then
    ({ s with comms_errors := s.comms_errors + 1 }, busRet, [Event.readDist])
  else
    let fr := s.reports.force (mkReport s hi lo now)
    ({ s with
        reports := fr.1
        buffer_overflows := s.buffer_overflows + if fr.2 then 1 else 0 },
      OK, [Event.readDist])

/-- `LL905::start`: reset the phase to measuring, flush the report ring,
and queue a cycle with delay 1 tick. The subsystem-health publish is
external. -/
def start (s : DriverState) : DriverState :=
  { s with
      collect_phase := false
      reports := s.reports.flush
      pending := some 1 }

/-- `LL905::stop`: cancel any pending scheduled cycle. -/
def stop (s : DriverState) : DriverState := { s with pending := none }

/-- Oracle inputs for one `cycle` invocation: the collect-phase transfer
outcome and bytes, the clock, and the measure-phase transfer outcome. -/
structure CycleEnv where
  collectRet : Int
  hi : Nat
  lo : Nat
  now : Nat
  measureRet : Int
deriving Repr, DecidableEq

/-- The measurement-phase tail of `LL905::cycle`: call `measure` (a
failure is logged but not acted on), set the phase to collecting, and
schedule the next cycle after the conversion interval. -/
def cycleMeasure (s : DriverState) (measureRet : Int) : DriverState × List Event :=
  let m := measure s measureRet
  ({ m.1 with
      collect_phase := true
      pending := some (USEC2TICK LL905_CONVERSION_INTERVAL) },
    m.2.2)

/-- `LL905::cycle`: in the collecting phase run `collect`; on failure
restart via `start`; on success fall back to measuring, and if the
configured interval exceeds the conversion interval schedule the gap and
stop, otherwise fall through to the measurement phase. -/
def cycle (s : DriverState) (env : CycleEnv) : DriverState × List Event :=
  if s.collect_phase then
    let c := collect s env.collectRet env.hi env.lo env.now
    if c.2.1 ≠ OK then
      (start c.1, c.2.2)
    else
      let s1 := { c.1 with collect_phase := false }
      if USEC2TICK LL905_CONVERSION_INTERVAL < s1.measure_ticks then
        ({ s1 with
            pending := some (s1.measure_ticks - USEC2TICK LL905_CONVERSION_INTERVAL) },
          c.2.2)
      else
        let m := cycleMeasure s1 env.measureRet
        (m.1, c.2.2 ++ m.2)
  else
    cycleMeasure s env.measureRet

/-- The ioctl commands handled by `LL905::ioctl` itself (anything else
goes to the superclass, which owns no engine state). Threshold values
are rationals, standing for the C++ floats. -/
inductive IoctlCmd where
  | setPollRate (arg : Nat)
  | getPollRate
  | setQueueDepth (arg : Nat)
  | getQueueDepth
  | reset
  | setMinDistance (v : ℚ)
  | setMaxDistance (v : ℚ)
deriving Repr, DecidableEq

/-- The `SENSORIOCSPOLLRATE` case of `LL905::ioctl` (lines 316-372),
switching on the request value exactly as the source does. -/
def setPollRate (s : DriverState) (arg : Nat) : DriverState × Int :=
  if arg = SENSOR_POLLRATE_MANUAL then
    ({ stop s with measure_ticks := 0 }, OK)
  else if arg = SENSOR_POLLRATE_EXTERNAL ∨ arg = 0 then
    (s, -EINVAL)
  else if arg = SENSOR_POLLRATE_MAX ∨ arg = SENSOR_POLLRATE_DEFAULT then
    let want_start := s.measure_ticks = 0
    let s1 := { s with measure_ticks := USEC2TICK LL905_CONVERSION_INTERVAL }
    (if want_start then start s1 else s1, OK)
  else
    let want_start := s.measure_ticks = 0
    let ticks := USEC2TICK (1000000 / arg)
    if ticks < USEC2TICK LL905_CONVERSION_INTERVAL then
      (s, -EINVAL)
    else
      let s1 := { s with measure_ticks := ticks }
      (if want_start then start s1 else s1, OK)

/-- `LL905::ioctl`: the control surface. Returns the new state and the
ioctl return value. -/
def ioctl (s : DriverState) (cmd : IoctlCmd) : DriverState × Int :=
  match cmd with
  | .setPollRate arg => setPollRate s arg
  | .getPollRate =>
      if s.measure_ticks = 0 then
        (s, (SENSOR_POLLRATE_MANUAL : Int))
      else
        (s, ((1000 / s.measure_ticks : Nat) : Int))
  | .setQueueDepth arg =>
      if arg < 1 ∨ 100 < arg then
        (s, -EINVAL)
      else
        match s.reports.resize arg with
        | none => (s, -ENOMEM)
        | some rb => ({ s with reports := rb }, OK)
  | .getQueueDepth => (s, (s.reports.size : Int))
  | .reset => (s, -EINVAL)
  | .setMinDistance v => ({ s with min_distance := v }, 0)
  | .setMaxDistance v => ({ s with max_distance := v }, 0)

/-- Division with an explicit zero-divisor check, used to restate the
control surface with every division guarded. -/
def checkedDiv (a b : Nat) : Option Nat :=
  if b = 0 then none else some (a / b)

/-- `setPollRate` with its Hz-to-interval division routed through
`checkedDiv`: `none` would mean a division by zero was reached. -/
def setPollRateChecked (s : DriverState) (arg : Nat) : Option (DriverState × Int) :=
  if arg = SENSOR_POLLRATE_MANUAL then
    some ({ stop s with measure_ticks := 0 }, OK)
  else if arg = SENSOR_POLLRATE_EXTERNAL ∨ arg = 0 then
    some (s, -EINVAL)
  else if arg = SENSOR_POLLRATE_MAX ∨ arg = SENSOR_POLLRATE_DEFAULT then
    let want_start := s.measure_ticks = 0
    let s1 := { s with measure_ticks := USEC2TICK LL905_CONVERSION_INTERVAL }
    some (if want_start then start s1 else s1, OK)
  else
    match checkedDiv 1000000 arg with
    | none => none
    | some usec =>
      let want_start := s.measure_ticks = 0
      let ticks := USEC2TICK usec
      if ticks < USEC2TICK LL905_CONVERSION_INTERVAL then
        some (s, -EINVAL)
      else
        let s1 := { s with measure_ticks := ticks }
        some (if want_start then start s1 else s1, OK)

/-- The `SENSORIOCGPOLLRATE` case with its division routed through
`checkedDiv`. -/
def getPollRateChecked (s : DriverState) : Option (DriverState × Int) :=
  if s.measure_ticks = 0 then
    some (s, (SENSOR_POLLRATE_MANUAL : Nat))
  else
    match checkedDiv 1000 s.measure_ticks with
    | none => none
    | some q => some (s, (q : Int))

/-- Result of `LL905::read`, with byte counts abstracted to the list of
reports copied out (`ret = length * sizeof(report)`); the error returns
keep their identity (`-ENOSPC`, `-EAGAIN`, `-EIO`). -/
inductive ReadResult where
  | reports (rs : List RangeFinderReport)
  | bufferTooSmall
  | tryAgain
  | ioFail
deriving Repr, DecidableEq

/-- The automatic-mode drain loop of `LL905::read`: up to `count`
successful `get` calls. The source keeps looping after an empty `get`,
which with no interleaved producer is equivalent to stopping. -/
def drain (rb : RingBuffer) : Nat → RingBuffer × List RangeFinderReport
  | 0 => (rb, [])
  | n + 1 =>
    match rb.get with
    | none => (rb, [])
    | some p =>
      let d := drain p.2 n
      (d.1, p.1 :: d.2)

/-- Oracle inputs for the manual-mode conversion inside `read`. -/
structure ReadEnv where
  measureRet : Int
  collectRet : Int
  hi : Nat
  lo : Nat
  now : Nat
deriving Repr, DecidableEq

/-- `LL905::read`: `count` is `buflen / sizeof(report)`. Automatic mode
drains the ring; manual mode runs one flush-measure-sleep-collect
conversion and copies out the produced report. -/
def read (s : DriverState) (count : Nat) (env : ReadEnv) :
    DriverState × ReadResult × List Event :=
  if count < 1 then
    (s, ReadResult.bufferTooSmall, [])
  else if 0 < s.measure_ticks then
    let d := drain s.reports count
    ({ s with reports := d.1 },
      if d.2.isEmpty then ReadResult.tryAgain else ReadResult.reports d.2,
      [])
  else
    let s0 := { s with reports := s.reports.flush }
    let m := measure s0 env.measureRet
    if m.2.1 ≠ OK then
      (m.1, ReadResult.ioFail, m.2.2)
    else
      let c := collect m.1 env.collectRet env.hi env.lo env.now
      let evs := m.2.2 ++ [Event.sleep LL905_CONVERSION_INTERVAL] ++ c.2.2
      if c.2.1 ≠ OK then
        (c.1, ReadResult.ioFail, evs)
      else
        match c.1.reports.get with
        | some p => ({ c.1 with reports := p.2 }, ReadResult.reports [p.1], evs)
        | none => (c.1, ReadResult.reports [], evs)

end LL905

namespace LL905

/-- Successful `RingBuffer.force` always leaves the inserted report as
the newest (last) entry. -/
theorem force_getLast (rb : RingBuffer) (r : RangeFinderReport) :
    (rb.force r).1.items.getLast? = some r := by
  unfold RingBuffer.force
  split <;> simp [List.getLast?_append_cons]

/-- C1: every report produced by a successful collect is the report
built by `mkReport`, whose `valid` flag is 1 exactly when the scaled
distance lies strictly between the configured minimum and maximum
thresholds, and 0 otherwise. -/
theorem collect_valid_iff (s : DriverState) (busRet : Int) (hi lo now : Nat)
    (h : 0 ≤ busRet) :
    (collect s busRet hi lo now).1.reports.items.getLast? = some (mkReport s hi lo now)
    ∧ ((mkReport s hi lo now).valid = 1 ↔
        s.min_distance < rawToMeters (composeBytes hi lo)
          ∧ rawToMeters (composeBytes hi lo) < s.max_distance)
    ∧ ((mkReport s hi lo now).valid = 0 ↔
        ¬ (s.min_distance < rawToMeters (composeBytes hi lo)
          ∧ rawToMeters (composeBytes hi lo) < s.max_distance)) := by
  have hb : ¬ busRet < 0 := not_lt.mpr h
  refine ⟨?_, ?_, ?_⟩
  · unfold collect
    simp only [hb, if_false]
    exact force_getLast s.reports (mkReport s hi lo now)
  · unfold mkReport
    split <;> simp_all
  · unfold mkReport
    split <;> simp_all

/-- Witness for C1 at a concrete state: raw count 100 scales to 1 m,
strictly inside the default thresholds, hence valid. -/
theorem collect_valid_iff_witness :
    (0 : Int) ≤ 0
    ∧ ((collect initState 0 0 100 7).1.reports.items.getLast?
          = some (mkReport initState 0 100 7)
      ∧ ((mkReport initState 0 100 7).valid = 1 ↔
          initState.min_distance < rawToMeters (composeBytes 0 100)
            ∧ rawToMeters (composeBytes 0 100) < initState.max_distance)
      ∧ ((mkReport initState 0 100 7).valid = 0 ↔
          ¬ (initState.min_distance < rawToMeters (composeBytes 0 100)
            ∧ rawToMeters (composeBytes 0 100) < initState.max_distance))) :=
  ⟨le_refl 0, collect_valid_iff initState 0 0 100 7 (le_refl 0)⟩

/-- C4: the two distance bytes are composed big-endian (high byte times
256 plus low byte), the raw count is scaled by exactly 1/100 to meters,
a raw count of 1000 scales to exactly 10 m, and the report built by
collect carries exactly that scaled distance. -/
theorem raw_to_meters_spec (hi lo : Nat) (hh : hi < 256) (hl : lo < 256) :
    composeBytes hi lo = 256 * hi + lo
    ∧ rawToMeters (composeBytes hi lo) = ((256 * hi + lo : Nat) : ℚ) / 100
    ∧ rawToMeters 1000 = 10
    ∧ (∀ s now, (mkReport s hi lo now).distance = rawToMeters (composeBytes hi lo)) := by
  have hc : composeBytes hi lo = 256 * hi + lo := by
    unfold composeBytes
    rw [Nat.mod_eq_of_lt hh, Nat.mod_eq_of_lt hl, Nat.mul_comm]
  refine ⟨hc, ?_, ?_, ?_⟩
  · rw [hc]; unfold rawToMeters; ring
  · unfold rawToMeters; norm_num
  · intro s now; rfl

/-- Witness for C4: bytes 0x03, 0xE8 compose to 1000 and scale to 10 m. -/
theorem raw_to_meters_spec_witness :
    3 < 256 ∧ 232 < 256
    ∧ (composeBytes 3 232 = 256 * 3 + 232
      ∧ rawToMeters (composeBytes 3 232) = ((256 * 3 + 232 : Nat) : ℚ) / 100
      ∧ rawToMeters 1000 = 10
      ∧ (∀ s now, (mkReport s 3 232 now).distance = rawToMeters (composeBytes 3 232))) :=
  ⟨by decide, by decide, raw_to_meters_spec 3 232 (by decide) (by decide)⟩

end LL905

namespace LL905

/-- The measure transaction is attempted exactly once per `measure`
call, whatever its outcome. -/
theorem measure_events (s : DriverState) (r : Int) :
    (measure s r).2.2 = [Event.acquire] := by
  unfold measure; split <;> rfl

/-- The distance-read transaction is attempted exactly once per
`collect` call, whatever its outcome. -/
theorem collect_events (s : DriverState) (r : Int) (hi lo now : Nat) :
    (collect s r hi lo now).2.2 = [Event.readDist] := by
  unfold collect; split <;> rfl

/-- A non-negative transfer outcome makes `collect` return `OK`. -/
theorem collect_ret_ok (s : DriverState) (r : Int) (hi lo now : Nat)
    (h : 0 ≤ r) : (collect s r hi lo now).2.1 = OK := by
  unfold collect
  simp [not_lt.mpr h]

/-- Neither transport call touches the configured interval. -/
theorem collect_measure_ticks (s : DriverState) (r : Int) (hi lo now : Nat) :
    (collect s r hi lo now).1.measure_ticks = s.measure_ticks := by
  unfold collect; split <;> rfl

theorem measure_measure_ticks (s : DriverState) (r : Int) :
    (measure s r).1.measure_ticks = s.measure_ticks := by
  unfold measure; split <;> rfl

/-- C2: a `cycle` in the collecting phase whose transport read fails
performs a full `start` — phase back to measuring, history buffer
flushed, a fresh cycle queued (delay 1 tick) — increments the
comms-error counter by exactly one, and performs no other bus
transaction (the event trace is the single failed read). -/
theorem cycle_collect_fail_restarts (s : DriverState) (env : CycleEnv)
    (hph : s.collect_phase = true) (hfail : env.collectRet < 0) :
    cycle s env =
      ({ s with
          collect_phase := false
          reports := s.reports.flush
          pending := some 1
          comms_errors := s.comms_errors + 1 },
        [Event.readDist]) := by
  have hne : env.collectRet ≠ OK := by unfold OK; exact ne_of_lt hfail
  unfold cycle collect start RingBuffer.flush
  simp [hph, hfail, hne]

/-- Witness for C2 at a concrete state and a failed read. -/
theorem cycle_collect_fail_restarts_witness :
    ({ initState with collect_phase := true } : DriverState).collect_phase = true
    ∧ (⟨-5, 0, 0, 0, 0⟩ : CycleEnv).collectRet < 0
    ∧ cycle { initState with collect_phase := true } ⟨-5, 0, 0, 0, 0⟩
        = ({ ({ initState with collect_phase := true } : DriverState) with
              collect_phase := false
              reports := ({ initState with collect_phase := true } :
                  DriverState).reports.flush
              pending := some 1
              comms_errors := ({ initState with collect_phase := true } :
                  DriverState).comms_errors + 1 },
            [Event.readDist]) :=
  ⟨rfl, by decide,
    cycle_collect_fail_restarts { initState with collect_phase := true }
      ⟨-5, 0, 0, 0, 0⟩ rfl (by decide)⟩

/-- C3: a `cycle` in the measuring phase — entered directly, or by
fallthrough after a successful collect with no idle gap — attempts the
acquisition (exactly one `acquire` event, whatever its outcome), sets
the phase to collecting, and schedules the next cycle after exactly the
conversion latency in ticks. -/
theorem cycle_measuring_schedules (s : DriverState) (env : CycleEnv) :
    (s.collect_phase = false →
      cycle s env =
        ({ (measure s env.measureRet).1 with
            collect_phase := true
            pending := some (USEC2TICK LL905_CONVERSION_INTERVAL) },
          [Event.acquire]))
    ∧ (s.collect_phase = true → 0 ≤ env.collectRet →
        s.measure_ticks ≤ USEC2TICK LL905_CONVERSION_INTERVAL →
        cycle s env =
          ({ (measure
                { (collect s env.collectRet env.hi env.lo env.now).1 with
                    collect_phase := false }
                env.measureRet).1 with
              collect_phase := true
              pending := some (USEC2TICK LL905_CONVERSION_INTERVAL) },
            [Event.readDist, Event.acquire])) := by
  constructor
  · intro hph
    unfold cycle cycleMeasure
    rw [hph]
    simp [measure_events]
  · intro hph hok hgap
    unfold cycle cycleMeasure
    rw [hph]
    have hret := collect_ret_ok s env.collectRet env.hi env.lo env.now hok
    have hmt := collect_measure_ticks s env.collectRet env.hi env.lo env.now
    simp only [if_true, hret, ne_eq, not_true_eq_false, if_false, hmt]
    rw [if_neg (by simpa [hmt] using not_lt.mpr hgap)]
    simp [measure_events, collect_events]

/-- Witness for C3: from the initial (measuring) state a cycle acquires,
flips to collecting, and schedules the conversion latency. -/
theorem cycle_measuring_schedules_witness :
    initState.collect_phase = false
    ∧ cycle initState ⟨0, 0, 0, 0, 0⟩
        = ({ (measure initState 0).1 with
              collect_phase := true
              pending := some (USEC2TICK LL905_CONVERSION_INTERVAL) },
            [Event.acquire]) :=
  ⟨rfl, (cycle_measuring_schedules initState ⟨0, 0, 0, 0, 0⟩).1 rfl⟩

end LL905

namespace LL905

/-- An explicit-Hz poll rate request: any value that is not one of the
named sentinels and not zero, hence handled by the default switch case. -/
def isHzArg (arg : Nat) : Prop :=
  arg ≠ SENSOR_POLLRATE_MANUAL ∧ arg ≠ SENSOR_POLLRATE_EXTERNAL ∧ arg ≠ 0
    ∧ arg ≠ SENSOR_POLLRATE_MAX ∧ arg ≠ SENSOR_POLLRATE_DEFAULT

instance (arg : Nat) : Decidable (isHzArg arg) := by
  unfold isHzArg; infer_instance

/-- C5: an explicit-Hz rate request whose tick interval falls short of
the conversion latency fails with `-EINVAL` leaving the whole state —
interval and pending schedule included — untouched; one at or above it
installs the interval and starts the engine exactly when the interval
was 0 (engine stopped). -/
theorem setPollRate_hz (s : DriverState) (arg : Nat) (h : isHzArg arg) :
    (USEC2TICK (1000000 / arg) < USEC2TICK LL905_CONVERSION_INTERVAL →
        ioctl s (IoctlCmd.setPollRate arg) = (s, -EINVAL))
    ∧ (USEC2TICK LL905_CONVERSION_INTERVAL ≤ USEC2TICK (1000000 / arg) →
        ioctl s (IoctlCmd.setPollRate arg) =
          ((if s.measure_ticks = 0
              then start { s with measure_ticks := USEC2TICK (1000000 / arg) }
              else { s with measure_ticks := USEC2TICK (1000000 / arg) }),
            OK)) := by
  obtain ⟨h1, h2, h3, h4, h5⟩ := h
  constructor
  · intro hlt
    simp [ioctl, setPollRate, h1, h2, h3, h4, h5, hlt]
  · intro hle
    simp [ioctl, setPollRate, h1, h2, h3, h4, h5, not_lt.mpr hle]

/-- Witness for C5: a 500 Hz request (2 ms < 100 ms) is rejected and the
fresh driver state is returned unchanged. -/
theorem setPollRate_hz_witness :
    isHzArg 500
    ∧ USEC2TICK (1000000 / 500) < USEC2TICK LL905_CONVERSION_INTERVAL
    ∧ ioctl initState (IoctlCmd.setPollRate 500) = (initState, -EINVAL) :=
  ⟨by decide, by decide,
    (setPollRate_hz initState 500 (by decide)).1 (by decide)⟩

/-- C8 counterexample: after setting the default rate the configured
interval is 10 ticks, yet `SENSORIOCGPOLLRATE` answers 100 — the code
returns `1000 / _measure_ticks`, not the interval in ticks. -/
theorem getPollRate_not_interval_cex :
    (ioctl initState (IoctlCmd.setPollRate SENSOR_POLLRATE_DEFAULT)).1.measure_ticks = 10
    ∧ (ioctl (ioctl initState (IoctlCmd.setPollRate SENSOR_POLLRATE_DEFAULT)).1
        IoctlCmd.getPollRate).2 = 100
    ∧ (100 : Int) ≠ 10 := by
  refine ⟨rfl, rfl, by decide⟩

/-- C8 amended: `SENSORIOCGPOLLRATE` answers the Manual sentinel when
the configured interval is 0, and otherwise `1000 / interval` (a
rate-shaped quotient, not the interval itself); the state is unchanged
either way. -/
theorem getPollRate_spec (s : DriverState) :
    (s.measure_ticks = 0 →
      ioctl s IoctlCmd.getPollRate = (s, (SENSOR_POLLRATE_MANUAL : Int)))
    ∧ (s.measure_ticks ≠ 0 →
      ioctl s IoctlCmd.getPollRate = (s, ((1000 / s.measure_ticks : Nat) : Int))) := by
  constructor <;> intro h <;> simp [ioctl, h]

/-- Witness for C8 amended: the fresh driver reports Manual. -/
theorem getPollRate_spec_witness :
    initState.measure_ticks = 0
    ∧ ioctl initState IoctlCmd.getPollRate = (initState, (SENSOR_POLLRATE_MANUAL : Int)) :=
  ⟨rfl, (getPollRate_spec initState).1 rfl⟩

end LL905

namespace LL905

/-- The measure/collect sequencing never touches the configured
interval. -/
theorem start_measure_ticks (s : DriverState) :
    (start s).measure_ticks = s.measure_ticks := rfl

theorem cycle_measure_ticks (s : DriverState) (env : CycleEnv) :
    (cycle s env).1.measure_ticks = s.measure_ticks := by
  by_cases hph : s.collect_phase <;>
  by_cases hret : (collect s env.collectRet env.hi env.lo env.now).2.1 = OK <;>
  by_cases hgap : USEC2TICK LL905_CONVERSION_INTERVAL < s.measure_ticks <;>
    simp [cycle, cycleMeasure, hph, hret, hgap, start_measure_ticks,
      collect_measure_ticks, measure_measure_ticks]

/-- The read path never touches the configured interval. -/
theorem read_measure_ticks (s : DriverState) (count : Nat) (env : ReadEnv) :
    (read s count env).1.measure_ticks = s.measure_ticks := by
  simp only [read]
  split
  · rfl
  · split
    · rfl
    · split
      · simp [measure_measure_ticks]
      · split
        · simp [collect_measure_ticks, measure_measure_ticks]
        · split <;> simp [collect_measure_ticks, measure_measure_ticks]

/-- The interval is legal: zero (manual, engine stopped) or at least the
conversion latency in ticks. -/
def TicksInv (s : DriverState) : Prop :=
  s.measure_ticks = 0 ∨ USEC2TICK LL905_CONVERSION_INTERVAL ≤ s.measure_ticks

/-- The control surface keeps the interval legal. -/
theorem ioctl_ticks_inv (s : DriverState) (cmd : IoctlCmd) (h : TicksInv s) :
    TicksInv (ioctl s cmd).1 := by
  cases cmd with
  | setPollRate arg =>
    simp only [ioctl, setPollRate]
    by_cases h1 : arg = SENSOR_POLLRATE_MANUAL
    · simp [h1, TicksInv, stop]
    · by_cases h2 : arg = SENSOR_POLLRATE_EXTERNAL ∨ arg = 0
      · simpa [h1, h2] using h
      · by_cases h3 : arg = SENSOR_POLLRATE_MAX ∨ arg = SENSOR_POLLRATE_DEFAULT
        · by_cases hw : s.measure_ticks = 0 <;>
            simp [h1, h2, h3, hw, TicksInv, start]
        · by_cases h4 :
            USEC2TICK (1000000 / arg) < USEC2TICK LL905_CONVERSION_INTERVAL
          · simpa [h1, h2, h3, h4] using h
          · by_cases hw : s.measure_ticks = 0 <;>
              simp [h1, h2, h3, h4, hw, TicksInv, start, not_lt.mp h4]
  | getPollRate =>
    by_cases h0 : s.measure_ticks = 0 <;> simpa [ioctl, h0] using h
  | setQueueDepth arg =>
    simp only [ioctl]
    by_cases hb : arg < 1 ∨ 100 < arg
    · rw [if_pos hb]; exact h
    · rw [if_neg hb]
      rcases hr : s.reports.resize arg with _ | rb
      · simpa [hr] using h
      · simpa [hr, TicksInv] using h
  | getQueueDepth => simpa [ioctl] using h
  | reset => simpa [ioctl] using h
  | setMinDistance v => simpa [ioctl, TicksInv] using h
  | setMaxDistance v => simpa [ioctl, TicksInv] using h

/-- C9: from construction onward the configured measure interval is
always 0 (manual) or at least the conversion latency in ticks: the
initial state satisfies the invariant and every control-surface
operation, every cycle, every read, and start/stop preserve it. -/
theorem measure_ticks_invariant :
    TicksInv initState
    ∧ (∀ s cmd, TicksInv s → TicksInv (ioctl s cmd).1)
    ∧ (∀ s env, TicksInv s → TicksInv (cycle s env).1)
    ∧ (∀ s count env, TicksInv s → TicksInv (read s count env).1)
    ∧ (∀ s, TicksInv s → TicksInv (start s) ∧ TicksInv (stop s)) := by
  refine ⟨Or.inl rfl, ioctl_ticks_inv, ?_, ?_, ?_⟩
  · intro s env h
    unfold TicksInv at h ⊢
    rwa [cycle_measure_ticks]
  · intro s count env h
    unfold TicksInv at h ⊢
    rwa [read_measure_ticks]
  · intro s h
    constructor <;> simpa [TicksInv, start, stop] using h

/-- Witness for C9: the invariant holds initially and survives a
default-rate request. -/
theorem measure_ticks_invariant_witness :
    TicksInv initState
    ∧ TicksInv (ioctl initState (IoctlCmd.setPollRate SENSOR_POLLRATE_DEFAULT)).1 :=
  ⟨measure_ticks_invariant.1,
    measure_ticks_invariant.2.1 initState (IoctlCmd.setPollRate SENSOR_POLLRATE_DEFAULT)
      measure_ticks_invariant.1⟩

/-- C10: both divisions on the poll-rate control path are reached only
with a non-zero divisor: routing them through an explicit zero-check
(`checkedDiv`) changes nothing — the checked variants always succeed and
agree with the originals. -/
theorem pollrate_div_guarded (s : DriverState) (arg : Nat) :
    setPollRateChecked s arg = some (setPollRate s arg)
    ∧ getPollRateChecked s = some (ioctl s IoctlCmd.getPollRate) := by
  constructor
  · by_cases h1 : arg = SENSOR_POLLRATE_MANUAL
    · simp [setPollRateChecked, setPollRate, h1]
    · by_cases h2 : arg = SENSOR_POLLRATE_EXTERNAL ∨ arg = 0
      · simp [setPollRateChecked, setPollRate, h1, h2]
      · by_cases h3 : arg = SENSOR_POLLRATE_MAX ∨ arg = SENSOR_POLLRATE_DEFAULT
        · simp [setPollRateChecked, setPollRate, h1, h2, h3]
        · have ha : arg ≠ 0 := fun hz => h2 (Or.inr hz)
          have h2a : arg ≠ SENSOR_POLLRATE_EXTERNAL := fun hx => h2 (Or.inl hx)
          by_cases h4 :
            USEC2TICK (1000000 / arg) < USEC2TICK LL905_CONVERSION_INTERVAL <;>
            simp [setPollRateChecked, setPollRate, checkedDiv, h1, h2a, ha, h3, h4]
  · by_cases h : s.measure_ticks = 0
    · simp [getPollRateChecked, ioctl, h]
    · simp [getPollRateChecked, ioctl, checkedDiv, h]

end LL905

namespace LL905

/-- Draining `n` reports removes and returns exactly the oldest
`min n occupancy` entries, in insertion order, and nothing else. -/
theorem drain_spec (n : Nat) (rb : RingBuffer) :
    drain rb n = (⟨rb.capacity, rb.items.drop n⟩, rb.items.take n) := by
  induction n generalizing rb with
  | zero => simp [drain]
  | succ n ih =>
    obtain ⟨cap, items⟩ := rb
    cases items with
    | nil => simp [drain, RingBuffer.get]
    | cons r rest => simp [drain, RingBuffer.get, ih]

/-- C7: with a positive configured interval a read drains up to `count`
reports from the front of the history buffer — the try-again indication
when it was empty, never more than what was buffered — performs no bus
transaction (empty event trace), and its outcome does not depend on the
transport oracle at all. -/
theorem read_auto (s : DriverState) (count : Nat) (env env2 : ReadEnv)
    (hc : 1 ≤ count) (hm : 0 < s.measure_ticks) :
    read s count env =
      ({ s with reports := ⟨s.reports.capacity, s.reports.items.drop count⟩ },
        (if s.reports.items = [] then ReadResult.tryAgain
          else ReadResult.reports (s.reports.items.take count)),
        [])
    ∧ read s count env = read s count env2 := by
  have hcc : ¬ count < 1 := not_lt.mpr hc
  constructor
  · simp only [read, hcc, if_false, hm, if_true, drain_spec]
    by_cases hnil : s.reports.items = []
    · simp [hnil]
    · obtain ⟨c, rfl⟩ : ∃ c, count = c + 1 := ⟨count - 1, by omega⟩
      cases hl : s.reports.items with
      | nil => exact absurd hl hnil
      | cons r rest => simp [hl]
  · simp only [read, hcc, if_false, hm, if_true]

/-- Witness for C7: automatic mode with an empty buffer answers
try-again without touching the bus, for any transport oracle. -/
theorem read_auto_witness :
    (1 ≤ 1 ∧ 0 < ({ initState with measure_ticks := 10 } : DriverState).measure_ticks)
    ∧ read { initState with measure_ticks := 10 } 1 ⟨0, 0, 0, 0, 0⟩
        = ({ ({ initState with measure_ticks := 10 } : DriverState) with
              reports :=
                ⟨({ initState with measure_ticks := 10 } :
                    DriverState).reports.capacity,
                  ({ initState with measure_ticks := 10 } :
                    DriverState).reports.items.drop 1⟩ },
            (if ({ initState with measure_ticks := 10 } :
                  DriverState).reports.items = [] then ReadResult.tryAgain
              else ReadResult.reports
                (({ initState with measure_ticks := 10 } :
                    DriverState).reports.items.take 1)),
            [])
    ∧ read { initState with measure_ticks := 10 } 1 ⟨0, 0, 0, 0, 0⟩
        = read { initState with measure_ticks := 10 } 1 ⟨-1, -1, 9, 9, 9⟩ :=
  ⟨⟨le_refl 1, Nat.zero_lt_succ 9⟩,
    (read_auto { initState with measure_ticks := 10 } 1 ⟨0, 0, 0, 0, 0⟩
        ⟨-1, -1, 9, 9, 9⟩ (le_refl 1) (Nat.zero_lt_succ 9)).1,
    (read_auto { initState with measure_ticks := 10 } 1 ⟨0, 0, 0, 0, 0⟩
        ⟨-1, -1, 9, 9, 9⟩ (le_refl 1) (Nat.zero_lt_succ 9)).2⟩

end LL905

namespace LL905

/-- C6: with the interval configured to 0 a read flushes the history
buffer, runs exactly one acquisition, one conversion-latency wait and
one distance read (the event trace), and hands the caller exactly the
one report just built, whatever the buffer held before; a transport
failure in the acquisition or in the read surfaces as the I/O error
result instead. -/
theorem read_manual (s : DriverState) (count : Nat) (env : ReadEnv)
    (hc : 1 ≤ count) (hm : s.measure_ticks = 0) (hcap : 1 ≤ s.reports.capacity) :
    (env.measureRet = OK → 0 ≤ env.collectRet →
      read s count env =
        ({ s with reports := ⟨s.reports.capacity, []⟩ },
          ReadResult.reports [mkReport s env.hi env.lo env.now],
          [Event.acquire, Event.sleep LL905_CONVERSION_INTERVAL, Event.readDist]))
    ∧ (env.measureRet ≠ OK →
      (read s count env).2.1 = ReadResult.ioFail
      ∧ (read s count env).2.2 = [Event.acquire])
    ∧ (env.measureRet = OK → env.collectRet < 0 →
      (read s count env).2.1 = ReadResult.ioFail
      ∧ (read s count env).2.2
          = [Event.acquire, Event.sleep LL905_CONVERSION_INTERVAL,
              Event.readDist]) := by
  have hcc : ¬ count < 1 := not_lt.mpr hc
  have hmm : ¬ 0 < s.measure_ticks := by omega
  have hcap0 : ¬ s.reports.capacity ≤ 0 := by omega
  have hrep : ∀ rb : RingBuffer,
      mkReport { s with reports := rb } env.hi env.lo env.now
        = mkReport s env.hi env.lo env.now := fun _ => rfl
  refine ⟨?_, ?_, ?_⟩
  · intro hmr hcr
    have hnc : ¬ env.collectRet < 0 := not_lt.mpr hcr
    simp [read, measure, collect, RingBuffer.flush, RingBuffer.force,
      RingBuffer.get, hcc, hmm, hmr, hnc, hcap0, OK, hrep]
  · intro hmr
    constructor <;>
      simp [read, measure, hcc, hmm, hmr]
  · intro hmr hcf
    have hne : env.collectRet ≠ OK := by unfold OK; exact ne_of_lt hcf
    constructor <;>
      simp [read, measure, collect, RingBuffer.flush, hcc, hmm, hmr, hcf, hne]

/-- Witness for C6: a fresh manual-mode driver with a successful
conversion returns the single report for raw count 100. -/
theorem read_manual_witness :
    (1 ≤ 1 ∧ initState.measure_ticks = 0 ∧ 1 ≤ initState.reports.capacity)
    ∧ read initState 1 ⟨0, 0, 0, 100, 7⟩
        = ({ initState with reports := ⟨initState.reports.capacity, []⟩ },
            ReadResult.reports [mkReport initState 0 100 7],
            [Event.acquire, Event.sleep LL905_CONVERSION_INTERVAL,
              Event.readDist]) :=
  ⟨⟨le_refl 1, rfl, by decide⟩,
    (read_manual initState 1 ⟨0, 0, 0, 100, 7⟩ (le_refl 1) rfl (by decide)).1
      rfl (le_refl 0)⟩

end LL905
